import Mathlib

/-!
# Verification of the hackaton-soat-processor worker

Shallow embedding of the video-processing worker:

* `domain/video_process.go` — `VideoProcess`, `ProcessResult`,
  `ToSuccessMessage`, `ToErrorMessage`;
* `usecase/process_video_usecase.go` — `Execute`, `validateRequest`,
  `downloadVideo`, `uploadZip`, `deleteOriginalVideo`,
  `sendSuccessMessage`, `sendErrorMessage`, `isValidVideoFile`;
* `adapter/ffmpeg_processor.go` — `ProcessVideo`, `createZipFile`;
* `cmd` main loop — `processMessage`, `deleteMessage`.

Go errors are modelled as `String` (every error in this code is built with
`fmt.Errorf`; wrapping with `%w`/`%v` is string concatenation of the prefix
and the wrapped error's text).  External collaborators (the S3 storage
port, the SQS message port, the ffmpeg video processor and the local file
system) are modelled as an environment record giving the outcome of each
call; `Execute` threads an explicit trace of the port calls it makes.
Message bodies are modelled at the level of the JSON value produced by
`json.Marshal` (a finite map from field names to strings); `json.Marshal`
never fails on such maps, so it is modelled as total.
-/

namespace SoatProcessor

/-- Go errors as their message text. -/
abbrev GoErr := String

/-- `filepath.Ext`: walk the path from its end; a `.` starts the extension,
a path separator (or exhausting the path) means there is none.  `rest` is
the reversed remaining path, `acc` the suffix scanned so far in order. -/
def extRevAux : List Char → List Char → Option (List Char)
  | [], _ => none
  | c :: rest, acc =>
    if c = '/' then none
    else if c = '.' then some (c :: acc)
    else extRevAux rest (c :: acc)

/-- `filepath.Ext`: the suffix beginning at the final dot in the final
slash-separated element of `path`; empty if there is no dot. -/
def filepathExt (path : String) : String :=
  match extRevAux path.data.reverse [] with
  | none => ""
  | some l => String.mk l

/-- The allow-list of `isValidVideoFile` (usecase, line 207). -/
def validExts : List String :=
  [".mp4", ".avi", ".mov", ".mkv", ".wmv", ".flv", ".webm"]

/-- `isValidVideoFile` (usecase, lines 205-215): the extension must equal
one of the listed lowercase extensions. -/
def isValidVideoFile (filename : String) : Bool :=
  let ext := filepathExt filename
  validExts.any (fun validExt => ext == validExt)

/-- `domain.VideoProcess`.  `createdAt` is the receipt timestamp (opaque
here, `time.Time` in Go). -/
structure VideoProcess where
  processID : String
  videoBucket : String
  videoKey : String
  createdAt : Nat := 0
  deriving Repr, DecidableEq

/-- `domain.ProcessResult`. -/
structure ProcessResult where
  processID : String
  fileBucket : String := ""
  fileKey : String := ""
  success : Bool := false
  error : Option GoErr := none
  deriving Repr, DecidableEq

/-- The JSON object produced by `json.Marshal` on the worker's outbound
maps, as its field map: every outbound payload of this worker is a flat
map from field names to strings. -/
abbrev Msg := List (String × String)

/-- `ProcessResult.ToSuccessMessage` (domain, lines 20-26). -/
def toSuccessMessage (r : ProcessResult) : Msg :=
  [("process_id", r.processID),
   ("file_bucket", r.fileBucket),
   ("file_key", r.fileKey)]

/-- `ProcessResult.ToErrorMessage` (domain, lines 28-37). -/
def toErrorMessage (r : ProcessResult) : Msg :=
  let errorMsg := match r.error with
    | none => "unknown error"
    | some e => e
  [("process_id", r.processID),
   ("error_message", errorMsg)]

/-- `validateRequest` (usecase, lines 86-102); `none` is Go's `nil`. -/
def validateRequest (request : VideoProcess) : Option GoErr :=
  if request.processID = "" then some "process_id is required"
  else if request.videoBucket = "" then some "video_bucket is required"
  else if request.videoKey = "" then some "video_key is required"
  else if !isValidVideoFile request.videoKey then
    some "invalid video file format. Supported: mp4, avi, mov, mkv, wmv, flv, webm"
  else none

/-- One observable call on the worker's ports: the Blob Store Port
(`GetObject`/`PutObject`/`DeleteObject`) and the Notification Port
(`SendMessage`, carrying the payload). -/
inductive Event where
  | get (bucket key : String)
  | put (bucket key : String)
  | delete (bucket key : String)
  | send (queueURL : String) (body : Msg)
  deriving Repr, DecidableEq

/-- Outcomes of the external calls `Execute` can make.  Each field gives
the result the collaborator (S3, SQS, ffmpeg, the local file system)
returns when called; `Except.error` carries the Go error text. -/
structure Env where
  /-- `storage.GetObject bucket key`; a success yields a readable body. -/
  getObject : String → String → Except GoErr Unit
  /-- `os.MkdirAll "/tmp/video-processor"`. -/
  mkdirTemp : Except GoErr Unit
  /-- `os.Create tempFile`. -/
  createFile : String → Except GoErr Unit
  /-- `io.Copy out body` on the downloaded stream. -/
  copyBody : Except GoErr Unit
  /-- `videoProcessor.ProcessVideo videoPath`, yielding `(zipPath, frameCount)`. -/
  processVideo : String → Except GoErr (String × Nat)
  /-- `os.Open zipPath`. -/
  openFile : String → Except GoErr Unit
  /-- `storage.PutObject bucket key body`, yielding a location. -/
  putObject : String → String → Except GoErr String
  /-- `storage.DeleteObject bucket key`. -/
  deleteObject : String → String → Except GoErr Unit
  /-- `message.SendMessage queueURL body`, yielding a message id. -/
  sendMessage : String → Msg → Except GoErr String

/-- The dependencies of `ProcessVideoUseCase` other than the ports. -/
structure UseCase where
  outputBucket : String
  outputQueueURL : String
  deriving Repr, DecidableEq

/-- The temporary file `downloadVideo` writes the video to (usecase,
lines 113-119): `filepath.Join("/tmp/video-processor",
"video_" + processID + ext)`.  `filepath.Join` is modelled as plain
concatenation with `/`: its path cleaning is the identity whenever the
`process_id` contains no path separator (the extension of an allow-listed
key never does). -/
def downloadTempPath (request : VideoProcess) : String :=
  "/tmp/video-processor/video_" ++ request.processID ++ filepathExt request.videoKey

/-- `downloadVideo` (usecase, lines 104-135): fetch the object, create the
temp dir and file, stream the body into it.  Returns the temp path and the
list of Blob Store calls made. -/
def downloadVideo (env : Env) (request : VideoProcess) :
    Except GoErr String × List Event :=
  let evs := [Event.get request.videoBucket request.videoKey]
  match env.getObject request.videoBucket request.videoKey with
  | .error e => (.error ("failed to get object from storage: " ++ e), evs)
  | .ok _ =>
    match env.mkdirTemp with
    | .error e => (.error ("failed to create temp directory: " ++ e), evs)
    | .ok _ =>
      let tempFile := downloadTempPath request
      match env.createFile tempFile with
      | .error e => (.error ("failed to create temp file: " ++ e), evs)
      | .ok _ =>
        match env.copyBody with
        | .error e => (.error ("failed to save video: " ++ e), evs)
        | .ok _ => (.ok tempFile, evs)

/-- `uploadZip` (usecase, lines 137-153): open the archive and put it to
the output bucket. -/
def uploadZip (uc : UseCase) (env : Env) (zipPath outputKey : String) :
    Option GoErr × List Event :=
  match env.openFile zipPath with
  | .error e => (some ("failed to open zip file: " ++ e), [])
  | .ok _ =>
    match env.putObject uc.outputBucket outputKey with
    | .error e =>
      (some ("failed to put object to storage: " ++ e),
       [Event.put uc.outputBucket outputKey])
    | .ok _ => (none, [Event.put uc.outputBucket outputKey])

/-- `deleteOriginalVideo` (usecase, lines 155-165). -/
def deleteOriginalVideo (env : Env) (request : VideoProcess) :
    Option GoErr × List Event :=
  match env.deleteObject request.videoBucket request.videoKey with
  | .error e =>
    (some ("failed to delete original video: " ++ e),
     [Event.delete request.videoBucket request.videoKey])
  | .ok _ => (none, [Event.delete request.videoBucket request.videoKey])

/-- `sendSuccessMessage` (usecase, lines 167-183).  `json.Marshal` of a
map of strings never fails, so the marshal step is total here; a send
failure is wrapped and returned. -/
def sendSuccessMessage (uc : UseCase) (env : Env) (result : ProcessResult) :
    Option GoErr × List Event :=
  let msgData := toSuccessMessage result
  match env.sendMessage uc.outputQueueURL msgData with
  | .error e =>
    (some ("failed to send success message: " ++ e),
     [Event.send uc.outputQueueURL msgData])
  | .ok _ => (none, [Event.send uc.outputQueueURL msgData])

/-- `sendErrorMessage` (usecase, lines 185-203).  On a send failure the
wrapped send error is returned; on success the function returns
`result.Error` — the original pipeline error — exactly as the source's
`return result.Error` does (line 202). -/
def sendErrorMessage (uc : UseCase) (env : Env) (result : ProcessResult) :
    Option GoErr × List Event :=
  let msgData := toErrorMessage result
  match env.sendMessage uc.outputQueueURL msgData with
  | .error e =>
    (some ("failed to send error message: " ++ e),
     [Event.send uc.outputQueueURL msgData])
  | .ok _ => (result.error, [Event.send uc.outputQueueURL msgData])

/-- The output key of a request (usecase, line 69):
`fmt.Sprintf("processed/frames_%s.zip", request.ProcessID)`. -/
def outputKeyOf (request : VideoProcess) : String :=
  "processed/frames_" ++ request.processID ++ ".zip"

/-- `Execute` (usecase, lines 40-84): validate, download, process, upload,
best-effort delete of the source, then notify.  Returns what Go's
`Execute` returns (`none` is a `nil` error) paired with the trace of port
calls in order. -/
def Execute (uc : UseCase) (env : Env) (request : VideoProcess) :
    Option GoErr × List Event :=
  let result : ProcessResult := { processID := request.processID }
  match validateRequest request with
  | some err => sendErrorMessage uc env { result with error := some err }
  | none =>
    let dl := downloadVideo env request
    match dl.1 with
    | .error e =>
      let se := sendErrorMessage uc env
        { result with error := some ("failed to download video: " ++ e) }
      (se.1, dl.2 ++ se.2)
    | .ok videoPath =>
      match env.processVideo videoPath with
      | .error e =>
        let se := sendErrorMessage uc env
          { result with error := some ("failed to process video: " ++ e) }
        (se.1, dl.2 ++ se.2)
      | .ok (zipPath, _frameCount) =>
        let outputKey := outputKeyOf request
        let up := uploadZip uc env zipPath outputKey
        match up.1 with
        | some e =>
          let se := sendErrorMessage uc env
            { result with error := some ("failed to upload zip: " ++ e) }
          (se.1, dl.2 ++ up.2 ++ se.2)
        | none =>
          -- a delete failure is only logged (usecase, lines 75-77)
          let del := deleteOriginalVideo env request
          let ss := sendSuccessMessage uc env
            { result with
                success := true
                fileBucket := uc.outputBucket
                fileKey := outputKey }
          (ss.1, dl.2 ++ up.2 ++ del.2 ++ ss.2)

/-! ## The ffmpeg frame extractor (`adapter/ffmpeg_processor.go`) -/

/-- `FFmpegVideoProcessor`: the adapter's only state is its temp dir. -/
structure FFmpegVideoProcessor where
  tempDir : String
  deriving Repr, DecidableEq

/-- Outcomes of the external calls `ProcessVideo` makes: the process
directory creation, the ffmpeg run (its combined output on failure),
the glob listing the produced frame files, and the zip creation. -/
structure FfmpegEnv where
  /-- `os.MkdirAll processDir`. -/
  mkdirProcessDir : Except GoErr Unit
  /-- `cmd.CombinedOutput()` of the ffmpeg invocation; on failure the
  error text and the combined output. -/
  runFfmpeg : Except (GoErr × String) Unit
  /-- `filepath.Glob(processDir/*.png)`: the frame files produced. -/
  globFrames : Except GoErr (List String)
  /-- `createZipFile files zipPath` (lines 67-84): packages exactly the
  listed files into the archive at `zipPath`. -/
  createZip : List String → String → Except GoErr Unit

/-- The per-run working directory (line 31):
`filepath.Join(tempDir, "process_" + pid)` where `pid = os.Getpid()`. -/
def processDirPath (p : FFmpegVideoProcessor) (pid : Nat) : String :=
  p.tempDir ++ "/process_" ++ toString pid

/-- The archive path (line 59): `filepath.Join(tempDir, "frames_" + pid + ".zip")`
where `pid = os.Getpid()` — keyed by the OS process id. -/
def zipTempPath (p : FFmpegVideoProcessor) (pid : Nat) : String :=
  p.tempDir ++ "/frames_" ++ toString pid ++ ".zip"

/-- `ProcessVideo` (adapter, lines 30-65): make the process dir, run
ffmpeg, glob the frames, fail when zero frames were produced, else zip
them and return the archive path and the frame count. -/
def ffmpegProcessVideo (p : FFmpegVideoProcessor) (fenv : FfmpegEnv)
    (pid : Nat) (_videoPath : String) : Except GoErr (String × Nat) :=
  match fenv.mkdirProcessDir with
  | .error e => .error ("failed to create process directory: " ++ e)
  | .ok _ =>
    match fenv.runFfmpeg with
    | .error (e, output) => .error ("ffmpeg error: " ++ e ++ ", output: " ++ output)
    | .ok _ =>
      match fenv.globFrames with
      | .error e => .error ("failed to list video frames: " ++ e)
      | .ok frames =>
        if frames.length = 0 then .error "no frames extracted from video"
        else
          let zipPath := zipTempPath p pid
          match fenv.createZip frames zipPath with
          | .error e => .error ("failed to create zip: " ++ e)
          | .ok _ => .ok (zipPath, frames.length)

/-! ## The intake loop (`cmd` main, `processMessage`) -/

/-- An SQS message as the loop sees it. -/
structure QueueMessage where
  messageId : String
  receiptHandle : String
  body : String
  deriving Repr, DecidableEq

/-- Observable steps of `processMessage`: handing a decoded request to the
Orchestrator's `Execute`, and the `DeleteMessage` call on the queue. -/
inductive LoopEvent where
  | dispatch (request : VideoProcess)
  | deleteMsg (receiptHandle : String)
  deriving Repr, DecidableEq

/-- `processMessage` (cmd main, lines 179-218): decode the body; a parse
failure deletes the message and returns the parse error without
dispatching; otherwise `Execute` runs and the message is deleted
afterwards whatever `Execute` returned.  `parse` embeds `json.Unmarshal`
into the request struct, `execute` the Orchestrator, `now` the receipt
timestamp; the failed delete is only logged (`deleteMessage`,
lines 220-238), so its outcome does not appear here. -/
def processMessage (parse : String → Except GoErr (String × String × String))
    (execute : VideoProcess → Option GoErr) (now : Nat) (msg : QueueMessage) :
    Option GoErr × List LoopEvent :=
  match parse msg.body with
  | .error e => (some e, [LoopEvent.deleteMsg msg.receiptHandle])
  | .ok (pid, bucket, key) =>
    let request : VideoProcess :=
      { processID := pid, videoBucket := bucket, videoKey := key, createdAt := now }
    let err := execute request
    (err, [LoopEvent.dispatch request, LoopEvent.deleteMsg msg.receiptHandle])

/-! ## Trace helpers -/

/-- Blob Store `get` calls in a trace. -/
def isGet : Event → Bool
  | .get _ _ => true
  | _ => false

/-- Blob Store `put` calls in a trace. -/
def isPut : Event → Bool
  | .put _ _ => true
  | _ => false

/-- Blob Store `delete` calls in a trace. -/
def isDelete : Event → Bool
  | .delete _ _ => true
  | _ => false

/-- Notification Port `send` calls in a trace. -/
def isSend : Event → Bool
  | .send _ _ => true
  | _ => false

/-- Any call on the Blob Store Port. -/
def isBlobStore (e : Event) : Bool := isGet e || isPut e || isDelete e

/-- How many events of a kind a trace holds. -/
def countEv (p : Event → Bool) (evs : List Event) : Nat :=
  (evs.filter p).length

/-- The payloads sent through the Notification Port, in order. -/
def sentBodies : List Event → List Msg
  | [] => []
  | .send _ body :: rest => body :: sentBodies rest
  | _ :: rest => sentBodies rest

/-- Queue `DeleteMessage` calls of the intake loop. -/
def isDeleteMsg : LoopEvent → Bool
  | .deleteMsg _ => true
  | _ => false

/-- Dispatches of a decoded request to the Orchestrator. -/
def isDispatch : LoopEvent → Bool
  | .dispatch _ => true
  | _ => false

/-! ## Trace and run lemmas -/

/-- `sendErrorMessage` makes exactly one Notification Port call, carrying
the failure payload, whether or not the send succeeds. -/
theorem sendErrorMessage_events (uc : UseCase) (env : Env) (r : ProcessResult) :
    (sendErrorMessage uc env r).2 = [Event.send uc.outputQueueURL (toErrorMessage r)] := by
  cases h : env.sendMessage uc.outputQueueURL (toErrorMessage r) <;>
    simp [sendErrorMessage, h]

/-- `sendSuccessMessage` makes exactly one Notification Port call,
carrying the success payload. -/
theorem sendSuccessMessage_events (uc : UseCase) (env : Env) (r : ProcessResult) :
    (sendSuccessMessage uc env r).2 = [Event.send uc.outputQueueURL (toSuccessMessage r)] := by
  cases h : env.sendMessage uc.outputQueueURL (toSuccessMessage r) <;>
    simp [sendSuccessMessage, h]

/-- `downloadVideo` makes exactly one Blob Store call: the `get`. -/
theorem downloadVideo_events (env : Env) (request : VideoProcess) :
    (downloadVideo env request).2 = [Event.get request.videoBucket request.videoKey] := by
  unfold downloadVideo
  cases h1 : env.getObject request.videoBucket request.videoKey <;> simp [h1]
  cases h2 : env.mkdirTemp <;> simp [h2]
  cases h3 : env.createFile (downloadTempPath request) <;> simp [h3]
  cases h4 : env.copyBody <;> simp [h4]

/-- `deleteOriginalVideo` makes exactly one Blob Store call: the `delete`. -/
theorem deleteOriginalVideo_events (env : Env) (request : VideoProcess) :
    (deleteOriginalVideo env request).2
      = [Event.delete request.videoBucket request.videoKey] := by
  cases h : env.deleteObject request.videoBucket request.videoKey <;>
    simp [deleteOriginalVideo, h]

/-- `uploadZip` makes at most one Blob Store call: the `put` (none when
opening the archive already failed). -/
theorem uploadZip_events (uc : UseCase) (env : Env) (zipPath outputKey : String) :
    (uploadZip uc env zipPath outputKey).2 = [] ∨
    (uploadZip uc env zipPath outputKey).2 = [Event.put uc.outputBucket outputKey] := by
  unfold uploadZip
  cases h1 : env.openFile zipPath <;> simp [h1]
  cases h2 : env.putObject uc.outputBucket outputKey <;> simp [h2]

/-- When the send succeeds, `sendErrorMessage` returns the original
pipeline error stored in the result (source line 202). -/
theorem sendErrorMessage_ok (uc : UseCase) (env : Env) (r : ProcessResult)
    (msgId : String)
    (h : env.sendMessage uc.outputQueueURL (toErrorMessage r) = .ok msgId) :
    (sendErrorMessage uc env r).1 = r.error := by
  simp [sendErrorMessage, h]

/-- `sendErrorMessage` never returns `nil` when the result carries an
error: either the pipeline error or the wrapped send error comes back. -/
theorem sendErrorMessage_ne_none (uc : UseCase) (env : Env) (r : ProcessResult)
    (h : r.error ≠ none) : (sendErrorMessage uc env r).1 ≠ none := by
  cases hs : env.sendMessage uc.outputQueueURL (toErrorMessage r) <;>
    simp [sendErrorMessage, hs, h]

/-- A fully successful acquisition: the object is fetched and streamed to
the `process_id`-keyed temp file. -/
theorem downloadVideo_ok (env : Env) (request : VideoProcess)
    (hget : env.getObject request.videoBucket request.videoKey = .ok ())
    (hmk : env.mkdirTemp = .ok ())
    (hcreate : env.createFile (downloadTempPath request) = .ok ())
    (hcopy : env.copyBody = .ok ()) :
    downloadVideo env request =
      (.ok (downloadTempPath request),
       [Event.get request.videoBucket request.videoKey]) := by
  simp [downloadVideo, hget, hmk, hcreate, hcopy]

/-- A fully successful publish: the archive is opened and put to the
output bucket. -/
theorem uploadZip_ok (uc : UseCase) (env : Env) (zipPath outputKey loc : String)
    (hopen : env.openFile zipPath = .ok ())
    (hput : env.putObject uc.outputBucket outputKey = .ok loc) :
    uploadZip uc env zipPath outputKey = (none, [Event.put uc.outputBucket outputKey]) := by
  simp [uploadZip, hopen, hput]

/-- The `ProcessResult` `Execute` builds on its success path (usecase,
lines 79-81). -/
def successResult (uc : UseCase) (request : VideoProcess) : ProcessResult :=
  { processID := request.processID
    fileBucket := uc.outputBucket
    fileKey := outputKeyOf request
    success := true }

/-- On a run where validation, acquisition, extraction and publish all
succeed, `Execute` performs get, put, delete and the success send, in that
order, and returns what `sendSuccessMessage` returns. -/
theorem Execute_success_run (uc : UseCase) (env : Env) (request : VideoProcess)
    (zipPath loc : String) (n : Nat)
    (hv : validateRequest request = none)
    (hget : env.getObject request.videoBucket request.videoKey = .ok ())
    (hmk : env.mkdirTemp = .ok ())
    (hcreate : env.createFile (downloadTempPath request) = .ok ())
    (hcopy : env.copyBody = .ok ())
    (hproc : env.processVideo (downloadTempPath request) = .ok (zipPath, n))
    (hopen : env.openFile zipPath = .ok ())
    (hput : env.putObject uc.outputBucket (outputKeyOf request) = .ok loc) :
    Execute uc env request =
      ((sendSuccessMessage uc env (successResult uc request)).1,
       [Event.get request.videoBucket request.videoKey,
        Event.put uc.outputBucket (outputKeyOf request),
        Event.delete request.videoBucket request.videoKey,
        Event.send uc.outputQueueURL (toSuccessMessage (successResult uc request))]) := by
  simp [Execute, hv, downloadVideo_ok env request hget hmk hcreate hcopy, hproc,
    uploadZip_ok uc env zipPath (outputKeyOf request) loc hopen hput,
    deleteOriginalVideo_events, sendSuccessMessage_events, successResult]

/-- On a run where acquisition succeeds and the extractor fails,
`Execute` performs the get and the failure send only. -/
theorem Execute_processFail_run (uc : UseCase) (env : Env) (request : VideoProcess)
    (e : GoErr)
    (hv : validateRequest request = none)
    (hget : env.getObject request.videoBucket request.videoKey = .ok ())
    (hmk : env.mkdirTemp = .ok ())
    (hcreate : env.createFile (downloadTempPath request) = .ok ())
    (hcopy : env.copyBody = .ok ())
    (hproc : env.processVideo (downloadTempPath request) = .error e) :
    Execute uc env request =
      ((sendErrorMessage uc env
          { processID := request.processID,
            error := some ("failed to process video: " ++ e) }).1,
       [Event.get request.videoBucket request.videoKey,
        Event.send uc.outputQueueURL
          (toErrorMessage
            { processID := request.processID,
              error := some ("failed to process video: " ++ e) })]) := by
  simp [Execute, hv, downloadVideo_ok env request hget hmk hcreate hcopy, hproc,
    sendErrorMessage_events]

/-- The error `Execute`'s pipeline itself produces, before notification:
the recorded stage error on the failure paths, `none` on the success path.
It mirrors `Execute`'s stage cascade (usecase, lines 48-81) without the
notification step. -/
def pipelineError (uc : UseCase) (env : Env) (request : VideoProcess) : Option GoErr :=
  match validateRequest request with
  | some err => some err
  | none =>
    match (downloadVideo env request).1 with
    | .error e => some ("failed to download video: " ++ e)
    | .ok videoPath =>
      match env.processVideo videoPath with
      | .error e => some ("failed to process video: " ++ e)
      | .ok (zipPath, _) =>
        match (uploadZip uc env zipPath (outputKeyOf request)).1 with
        | some e => some ("failed to upload zip: " ++ e)
        | none => none

/-! ## Extension facts used for path disjointness -/

/-- The allow-listed extensions as character lists. -/
def validExtsData : List (List Char) :=
  [['.','m','p','4'], ['.','a','v','i'], ['.','m','o','v'], ['.','m','k','v'],
   ['.','w','m','v'], ['.','f','l','v'], ['.','w','e','b','m']]

/-- The character data of an allow-listed extension. -/
theorem mem_validExtsData {e : String} (h : e ∈ validExts) : e.data ∈ validExtsData := by
  simp [validExts] at h
  rcases h with rfl|rfl|rfl|rfl|rfl|rfl|rfl <;> decide

/-- Appending allow-listed extensions is cancellative: the extensions all
have four characters except `.webm`, whose last character differs from
every four-character one's, so equal concatenations force equal stems. -/
theorem extData_append_cancel {e1 e2 : List Char} (h1 : e1 ∈ validExtsData)
    (h2 : e2 ∈ validExtsData) {l1 l2 : List Char} (h : l1 ++ e1 = l2 ++ e2) :
    l1 = l2 := by
  fin_cases h1 <;> fin_cases h2 <;>
  first
    | exact (List.append_inj' h (by decide)).1
    | (exfalso
       have h' := congrArg List.reverse h
       simp only [List.reverse_append] at h'
       simp at h')

/-- A key accepted by `isValidVideoFile` has its extension in the
allow-list. -/
theorem validExt_of_isValidVideoFile {key : String} (h : isValidVideoFile key = true) :
    filepathExt key ∈ validExts := by
  simp only [isValidVideoFile, List.any_eq_true, beq_iff_eq] at h
  obtain ⟨v, hv, he⟩ := h
  exact he ▸ hv

/-- Distinct `process_id`s give distinct download temp paths, for any two
keys that pass validation. -/
theorem downloadTempPath_inj {r1 r2 : VideoProcess}
    (h1 : isValidVideoFile r1.videoKey = true)
    (h2 : isValidVideoFile r2.videoKey = true)
    (hne : r1.processID ≠ r2.processID) :
    downloadTempPath r1 ≠ downloadTempPath r2 := by
  intro he
  apply hne
  have hd := congrArg String.data he
  simp only [downloadTempPath, String.data_append] at hd
  rw [List.append_assoc, List.append_assoc] at hd
  have hd2 := List.append_cancel_left hd
  have h3 := extData_append_cancel
    (mem_validExtsData (validExt_of_isValidVideoFile h1))
    (mem_validExtsData (validExt_of_isValidVideoFile h2)) hd2
  exact String.ext h3

/-! ## Concrete collaborators for witnesses -/

/-- An environment whose collaborators all succeed; the extractor reports
ten frames. -/
def okEnv : Env where
  getObject := fun _ _ => .ok ()
  mkdirTemp := .ok ()
  createFile := fun _ => .ok ()
  copyBody := .ok ()
  processVideo := fun _ => .ok ("/tmp/video-processor/frames_1.zip", 10)
  openFile := fun _ => .ok ()
  putObject := fun _ _ => .ok "location"
  deleteObject := fun _ _ => .ok ()
  sendMessage := fun _ _ => .ok "msg-id"

/-- A use case configured with an output bucket and queue. -/
def okUseCase : UseCase where
  outputBucket := "hackaton-soat-storage"
  outputQueueURL := "hackaton-soat-processed"

/-- A well-formed work request. -/
def okRequest : VideoProcess where
  processID := "p1"
  videoBucket := "in"
  videoKey := "v.mp4"

/-- An ffmpeg collaborator run that produces two frames. -/
def okFfmpegEnv : FfmpegEnv where
  mkdirProcessDir := .ok ()
  runFfmpeg := .ok ()
  globFrames := .ok ["frame_0001.png", "frame_0002.png"]
  createZip := fun _ _ => .ok ()

/-- An ffmpeg collaborator run that produces no frames. -/
def noFramesFfmpegEnv : FfmpegEnv where
  mkdirProcessDir := .ok ()
  runFfmpeg := .ok ()
  globFrames := .ok []
  createZip := fun _ _ => .ok ()

/-- An environment whose only failing collaborator call is the deletion
of the source object. -/
def delFailEnv : Env :=
  { okEnv with deleteObject := fun _ _ => .error "delete failed" }

/-- A work request with an empty `process_id`. -/
def emptyPidRequest : VideoProcess where
  processID := ""
  videoBucket := "in"
  videoKey := "v.mp4"

/-- A second well-formed work request, with a different `process_id`. -/
def otherRequest : VideoProcess where
  processID := "p2"
  videoBucket := "in"
  videoKey := "w.mp4"

/-! ## Claims -/

/-- C7: every invocation of `Execute` makes at most one `get`, at most one
`put` and at most one `delete` on the Blob Store Port, and exactly one
`send` on the Notification Port — the pipeline always ends in a
notification attempt, including on validation failure. -/
theorem c7_port_call_bounds (uc : UseCase) (env : Env) (request : VideoProcess) :
    countEv isGet (Execute uc env request).2 ≤ 1 ∧
    countEv isPut (Execute uc env request).2 ≤ 1 ∧
    countEv isDelete (Execute uc env request).2 ≤ 1 ∧
    countEv isSend (Execute uc env request).2 = 1 := by
  have hup := uploadZip_events uc env
  unfold Execute
  cases hv : validateRequest request
  case some err =>
    simp [sendErrorMessage_events, countEv, isGet, isPut, isDelete, isSend]
  case none =>
  cases hdl : (downloadVideo env request).1
  case error e =>
    simp [hdl, downloadVideo_events, sendErrorMessage_events, countEv,
      isGet, isPut, isDelete, isSend]
  case ok videoPath =>
  simp only [hdl]
  cases hpv : env.processVideo videoPath
  case error e =>
    simp [hpv, downloadVideo_events, sendErrorMessage_events, countEv,
      isGet, isPut, isDelete, isSend]
  case ok pr =>
  obtain ⟨zipPath, frameCount⟩ := pr
  simp only [hpv]
  cases hz : (uploadZip uc env zipPath (outputKeyOf request)).1
  case some e =>
    rcases hup zipPath (outputKeyOf request) with h | h <;>
      simp [hz, h, downloadVideo_events, sendErrorMessage_events, countEv,
        isGet, isPut, isDelete, isSend]
  case none =>
    rcases hup zipPath (outputKeyOf request) with h | h <;>
      simp [hz, h, downloadVideo_events, deleteOriginalVideo_events,
        sendSuccessMessage_events, countEv, isGet, isPut, isDelete, isSend]

/-- C2: for every WorkRequest with an empty `process_id`, source bucket or
source key (and a Notification Port whose send succeeds), `Execute`
returns the validation error itself, sends exactly one failure
notification carrying it, and makes zero calls to the Blob Store Port. -/
theorem c2_empty_field_validation (uc : UseCase) (env : Env) (request : VideoProcess)
    (h : request.processID = "" ∨ request.videoBucket = "" ∨ request.videoKey = "")
    (hsend : ∀ q m, ∃ msgId, env.sendMessage q m = .ok msgId) :
    (validateRequest request).isSome ∧
    (Execute uc env request).1 = validateRequest request ∧
    countEv isBlobStore (Execute uc env request).2 = 0 ∧
    sentBodies (Execute uc env request).2 =
      [toErrorMessage { processID := request.processID,
                        error := validateRequest request }] := by
  have hv : (validateRequest request).isSome := by
    unfold validateRequest
    rcases h with h | h | h <;> rw [h] <;> (repeat' split) <;> simp_all
  obtain ⟨err, herr⟩ := Option.isSome_iff_exists.mp hv
  obtain ⟨msgId, hmsgId⟩ := hsend uc.outputQueueURL
    (toErrorMessage { processID := request.processID, error := some err })
  refine ⟨hv, ?_, ?_, ?_⟩
  · simp [Execute, herr,
      sendErrorMessage_ok uc env { processID := request.processID, error := some err } msgId hmsgId]
  · simp [Execute, herr, sendErrorMessage_events, countEv, isBlobStore,
      isGet, isPut, isDelete]
  · simp [Execute, herr, sendErrorMessage_events, sentBodies]

/-- C2 witness: the contract at a concrete empty-`process_id` request. -/
theorem c2_empty_field_validation_witness :
    (validateRequest emptyPidRequest).isSome ∧
    (Execute okUseCase okEnv emptyPidRequest).1 = validateRequest emptyPidRequest ∧
    countEv isBlobStore (Execute okUseCase okEnv emptyPidRequest).2 = 0 ∧
    sentBodies (Execute okUseCase okEnv emptyPidRequest).2 =
      [toErrorMessage
        { processID := emptyPidRequest.processID,
          error := validateRequest emptyPidRequest }] :=
  c2_empty_field_validation okUseCase okEnv emptyPidRequest
    (Or.inl rfl) (fun _ _ => ⟨"msg-id", rfl⟩)

/-- C1 counterexample: on an invalid request with a Notification Port
whose send always succeeds, `Execute` still returns the validation error —
not `nil`, and not a NotificationError. -/
theorem c1_error_routing_counterexample :
    (∀ q m, okEnv.sendMessage q m = Except.ok "msg-id") ∧
    (Execute okUseCase okEnv emptyPidRequest).1 = some "process_id is required" :=
  ⟨fun _ _ => rfl, by decide⟩

/-- C1 amended: every stage failure is caught inside `Execute` and routed
to the Notification Port as a failure payload, but when the notification
send succeeds `Execute` returns the original pipeline error (the
validation, acquisition, extraction or publish error) to the Intake Loop,
not `nil`; only a failed send replaces it with a notification error. -/
theorem c1_error_routing_amended (uc : UseCase) (env : Env) (request : VideoProcess)
    (hsend : ∀ q m, ∃ msgId, env.sendMessage q m = .ok msgId) :
    (Execute uc env request).1 = pipelineError uc env request ∧
    sentBodies (Execute uc env request).2 =
      (match pipelineError uc env request with
       | some err => [toErrorMessage { processID := request.processID, error := some err }]
       | none => [toSuccessMessage (successResult uc request)]) := by
  have hmsg : ∀ r : ProcessResult, (sendErrorMessage uc env r).1 = r.error := by
    intro r
    obtain ⟨msgId, hmsgId⟩ := hsend uc.outputQueueURL (toErrorMessage r)
    exact sendErrorMessage_ok uc env r msgId hmsgId
  have hsucc : ∀ r : ProcessResult, (sendSuccessMessage uc env r).1 = none := by
    intro r
    obtain ⟨msgId, hmsgId⟩ := hsend uc.outputQueueURL (toSuccessMessage r)
    simp [sendSuccessMessage, hmsgId]
  unfold Execute pipelineError
  cases hv : validateRequest request
  case some err =>
    simp [hmsg, sendErrorMessage_events, sentBodies]
  case none =>
  cases hdl : (downloadVideo env request).1
  case error e =>
    simp [hdl, hmsg, sendErrorMessage_events, downloadVideo_events, sentBodies]
  case ok videoPath =>
  simp only [hdl]
  cases hpv : env.processVideo videoPath
  case error e =>
    simp [hpv, hmsg, sendErrorMessage_events, downloadVideo_events, sentBodies]
  case ok pr =>
  obtain ⟨zipPath, frameCount⟩ := pr
  simp only [hpv]
  cases hz : (uploadZip uc env zipPath (outputKeyOf request)).1
  case some e =>
    rcases uploadZip_events uc env zipPath (outputKeyOf request) with h | h <;>
      simp [hz, h, hmsg, sendErrorMessage_events, downloadVideo_events, sentBodies]
  case none =>
    rcases uploadZip_events uc env zipPath (outputKeyOf request) with h | h <;>
      simp [hz, h, hsucc, downloadVideo_events, deleteOriginalVideo_events,
        sendSuccessMessage_events, sentBodies, successResult]

/-- C1 amended witness: the amended contract at a concrete all-success
run. -/
theorem c1_error_routing_amended_witness :
    (Execute okUseCase okEnv okRequest).1 = pipelineError okUseCase okEnv okRequest ∧
    sentBodies (Execute okUseCase okEnv okRequest).2 =
      (match pipelineError okUseCase okEnv okRequest with
       | some err => [toErrorMessage { processID := okRequest.processID, error := some err }]
       | none => [toSuccessMessage (successResult okUseCase okRequest)]) :=
  c1_error_routing_amended okUseCase okEnv okRequest (fun _ _ => ⟨"msg-id", rfl⟩)

/-- C3: if validation and acquisition succeed and the ffmpeg Frame
Extractor produces zero frames, the job is treated as failed — `Execute`
returns an error, sends exactly one failure notification (carrying the
wrapped zero-frames extraction error), and makes no `put` call.  The
zero-frames case surfaces as the extractor's "no frames extracted from
video" error (adapter, lines 55-57), which `Execute` handles on its
extraction-failure path (usecase, lines 60-64). -/
theorem c3_zero_frames_failure (uc : UseCase) (env : Env) (p : FFmpegVideoProcessor)
    (fenv : FfmpegEnv) (pid : Nat) (request : VideoProcess)
    (hv : validateRequest request = none)
    (hget : env.getObject request.videoBucket request.videoKey = .ok ())
    (hmk : env.mkdirTemp = .ok ())
    (hcreate : env.createFile (downloadTempPath request) = .ok ())
    (hcopy : env.copyBody = .ok ())
    (hmkp : fenv.mkdirProcessDir = .ok ())
    (hrun : fenv.runFfmpeg = .ok ())
    (hglob : fenv.globFrames = .ok []) :
    (Execute uc { env with processVideo := ffmpegProcessVideo p fenv pid } request).1
      ≠ none ∧
    countEv isPut
      (Execute uc { env with processVideo := ffmpegProcessVideo p fenv pid } request).2
      = 0 ∧
    sentBodies
      (Execute uc { env with processVideo := ffmpegProcessVideo p fenv pid } request).2
      = [toErrorMessage
          { processID := request.processID,
            error := some "failed to process video: no frames extracted from video" }] := by
  have hproc : ({ env with processVideo := ffmpegProcessVideo p fenv pid } : Env).processVideo
      (downloadTempPath request) = .error "no frames extracted from video" := by
    simp [ffmpegProcessVideo, hmkp, hrun, hglob]
  rw [Execute_processFail_run uc { env with processVideo := ffmpegProcessVideo p fenv pid }
    request "no frames extracted from video" hv hget hmk hcreate hcopy hproc]
  refine ⟨?_, ?_, ?_⟩
  · exact sendErrorMessage_ne_none _ _ _ (by simp)
  · simp [countEv, isPut]
  · simp [sentBodies]

/-- C3 witness: the zero-frames contract at a concrete run whose other
collaborators all succeed. -/
theorem c3_zero_frames_failure_witness :
    (Execute okUseCase
        { okEnv with processVideo :=
            ffmpegProcessVideo { tempDir := "/tmp/video-processor" } noFramesFfmpegEnv 7 }
        okRequest).1 ≠ none ∧
    countEv isPut
      (Execute okUseCase
        { okEnv with processVideo :=
            ffmpegProcessVideo { tempDir := "/tmp/video-processor" } noFramesFfmpegEnv 7 }
        okRequest).2 = 0 ∧
    sentBodies
      (Execute okUseCase
        { okEnv with processVideo :=
            ffmpegProcessVideo { tempDir := "/tmp/video-processor" } noFramesFfmpegEnv 7 }
        okRequest).2
      = [toErrorMessage
          { processID := okRequest.processID,
            error := some "failed to process video: no frames extracted from video" }] :=
  c3_zero_frames_failure okUseCase okEnv { tempDir := "/tmp/video-processor" }
    noFramesFfmpegEnv 7 okRequest rfl rfl rfl rfl rfl rfl rfl rfl

/-- C4 counterexample: the key `video.MP4` carries the allow-listed
extension `mp4` in upper case, yet the extension check rejects it and
validation fails — the comparison in `isValidVideoFile` is
case-sensitive, not case-insensitive. -/
theorem c4_extension_case_counterexample :
    ".MP4".data.map Char.toLower = ".mp4".data ∧ ".mp4" ∈ validExts ∧
    filepathExt "video.MP4" = ".MP4" ∧
    isValidVideoFile "video.MP4" = false ∧
    validateRequest { processID := "p1", videoBucket := "in", videoKey := "video.MP4" }
      = some "invalid video file format. Supported: mp4, avi, mov, mkv, wmv, flv, webm" := by
  decide

/-- C4 amended: the extension check is exact (case-sensitive): a key
passes `isValidVideoFile` exactly when its extension is one of the seven
lowercase allow-listed strings; for every request whose fields are
non-empty but whose key fails the check (with a Notification Port whose
send succeeds), `Execute` returns the invalid-format validation error,
sends exactly one failure notification, and makes zero Blob Store calls. -/
theorem c4_extension_allowlist_amended (key : String) (uc : UseCase) (env : Env)
    (request : VideoProcess)
    (hpid : request.processID ≠ "") (hbucket : request.videoBucket ≠ "")
    (hkey : request.videoKey ≠ "")
    (hext : isValidVideoFile request.videoKey = false)
    (hsend : ∀ q m, ∃ msgId, env.sendMessage q m = .ok msgId) :
    (isValidVideoFile key = true ↔ filepathExt key ∈ validExts) ∧
    (Execute uc env request).1 =
      some "invalid video file format. Supported: mp4, avi, mov, mkv, wmv, flv, webm" ∧
    countEv isBlobStore (Execute uc env request).2 = 0 ∧
    sentBodies (Execute uc env request).2 =
      [toErrorMessage
        { processID := request.processID,
          error :=
            some "invalid video file format. Supported: mp4, avi, mov, mkv, wmv, flv, webm" }] := by
  have herr : validateRequest request =
      some "invalid video file format. Supported: mp4, avi, mov, mkv, wmv, flv, webm" := by
    simp [validateRequest, hpid, hbucket, hkey, hext]
  obtain ⟨msgId, hmsgId⟩ := hsend uc.outputQueueURL
    (toErrorMessage
      { processID := request.processID,
        error :=
          some "invalid video file format. Supported: mp4, avi, mov, mkv, wmv, flv, webm" })
  refine ⟨?_, ?_, ?_, ?_⟩
  · constructor
    · exact validExt_of_isValidVideoFile
    · intro hm
      simpa [isValidVideoFile, List.any_eq_true] using hm
  · simp [Execute, herr, sendErrorMessage_ok uc env _ msgId hmsgId]
  · simp [Execute, herr, sendErrorMessage_events, countEv, isBlobStore,
      isGet, isPut, isDelete]
  · simp [Execute, herr, sendErrorMessage_events, sentBodies]

/-- C4 amended witness: the amended contract at the concrete upper-case
key `video.MP4`. -/
theorem c4_extension_allowlist_amended_witness :
    (isValidVideoFile "video.webm" = true ↔ filepathExt "video.webm" ∈ validExts) ∧
    (Execute okUseCase okEnv
        { processID := "p1", videoBucket := "in", videoKey := "video.MP4" }).1 =
      some "invalid video file format. Supported: mp4, avi, mov, mkv, wmv, flv, webm" ∧
    countEv isBlobStore (Execute okUseCase okEnv
        { processID := "p1", videoBucket := "in", videoKey := "video.MP4" }).2 = 0 ∧
    sentBodies (Execute okUseCase okEnv
        { processID := "p1", videoBucket := "in", videoKey := "video.MP4" }).2 =
      [toErrorMessage
        { processID := "p1",
          error :=
            some "invalid video file format. Supported: mp4, avi, mov, mkv, wmv, flv, webm" }] :=
  c4_extension_allowlist_amended "video.webm" okUseCase okEnv
    { processID := "p1", videoBucket := "in", videoKey := "video.MP4" }
    (by decide) (by decide) (by decide) (by decide) (fun _ _ => ⟨"msg-id", rfl⟩)

/-- C5 counterexample: two invocations with distinct `process_id` values
(and the same OS process id 7) are both handed the archive path
`/tmp/video-processor/frames_7.zip` — the archive path is keyed by
`os.Getpid()`, not by `process_id`, so the temporary-path sets of the two
invocations are not disjoint. -/
theorem c5_temp_path_counterexample :
    okRequest.processID ≠ otherRequest.processID ∧
    ffmpegProcessVideo { tempDir := "/tmp/video-processor" } okFfmpegEnv 7
        (downloadTempPath okRequest)
      = .ok ("/tmp/video-processor/frames_7.zip", 2) ∧
    ffmpegProcessVideo { tempDir := "/tmp/video-processor" } okFfmpegEnv 7
        (downloadTempPath otherRequest)
      = .ok ("/tmp/video-processor/frames_7.zip", 2) :=
  ⟨by decide, rfl, rfl⟩

/-- C5 amended: only the downloaded video file's path is keyed by
`process_id` — distinct `process_id`s give distinct download paths for
any keys that pass validation — while the produced archive path is keyed
by the OS process id alone: two runs of the extractor with the same OS
pid return the same archive path regardless of the video they process. -/
theorem c5_temp_path_amended :
    (∀ r1 r2 : VideoProcess, '/' ∉ r1.processID.data → '/' ∉ r2.processID.data →
      isValidVideoFile r1.videoKey = true →
      isValidVideoFile r2.videoKey = true → r1.processID ≠ r2.processID →
      downloadTempPath r1 ≠ downloadTempPath r2) ∧
    (∀ (p : FFmpegVideoProcessor) (fenv : FfmpegEnv) (pid : Nat)
        (vp1 vp2 z1 z2 : String) (n1 n2 : Nat),
      ffmpegProcessVideo p fenv pid vp1 = .ok (z1, n1) →
      ffmpegProcessVideo p fenv pid vp2 = .ok (z2, n2) → z1 = z2) := by
  constructor
  · intro r1 r2 _ _ h1 h2 hne
    exact downloadTempPath_inj h1 h2 hne
  · intro p fenv pid vp1 vp2 z1 z2 n1 n2 h1 h2
    have h : ffmpegProcessVideo p fenv pid vp1 = ffmpegProcessVideo p fenv pid vp2 := rfl
    rw [h1, h2] at h
    simp at h
    exact h.1

/-- C5 amended witness: distinct download paths for the two concrete
requests, and coinciding archive paths for their extractor runs. -/
theorem c5_temp_path_amended_witness :
    downloadTempPath okRequest ≠ downloadTempPath otherRequest ∧
    ("/tmp/video-processor/frames_7.zip" : String) = "/tmp/video-processor/frames_7.zip" :=
  ⟨c5_temp_path_amended.1 okRequest otherRequest (by decide) (by decide) (by decide)
     (by decide) (by decide),
   c5_temp_path_amended.2 { tempDir := "/tmp/video-processor" } okFfmpegEnv 7
     (downloadTempPath okRequest) (downloadTempPath otherRequest)
     "/tmp/video-processor/frames_7.zip" "/tmp/video-processor/frames_7.zip" 2 2
     rfl rfl⟩

/-- C6: when publish succeeds but deletion of the source object fails,
`Execute` still returns `nil` (success), and exactly one success
notification is sent — the deletion failure never fails the job. -/
theorem c6_cleanup_failure_still_success (uc : UseCase) (env : Env)
    (request : VideoProcess) (zipPath loc : String) (n : Nat) (d : GoErr)
    (msgId : String)
    (hv : validateRequest request = none)
    (hget : env.getObject request.videoBucket request.videoKey = .ok ())
    (hmk : env.mkdirTemp = .ok ())
    (hcreate : env.createFile (downloadTempPath request) = .ok ())
    (hcopy : env.copyBody = .ok ())
    (hproc : env.processVideo (downloadTempPath request) = .ok (zipPath, n))
    (hopen : env.openFile zipPath = .ok ())
    (hput : env.putObject uc.outputBucket (outputKeyOf request) = .ok loc)
    (hdel : env.deleteObject request.videoBucket request.videoKey = .error d)
    (hsendok : env.sendMessage uc.outputQueueURL
        (toSuccessMessage (successResult uc request)) = .ok msgId) :
    (Execute uc env request).1 = none ∧
    sentBodies (Execute uc env request).2 =
      [toSuccessMessage (successResult uc request)] ∧
    countEv isSend (Execute uc env request).2 = 1 := by
  rw [Execute_success_run uc env request zipPath loc n hv hget hmk hcreate hcopy
    hproc hopen hput]
  refine ⟨?_, ?_, ?_⟩
  · simp [sendSuccessMessage, hsendok]
  · simp [sentBodies]
  · simp [countEv, isSend]

/-- C6 witness: the contract at a concrete run whose only failing
collaborator call is the source deletion. -/
theorem c6_cleanup_failure_still_success_witness :
    (Execute okUseCase delFailEnv okRequest).1 = none ∧
    sentBodies (Execute okUseCase delFailEnv okRequest).2 =
      [toSuccessMessage (successResult okUseCase okRequest)] ∧
    countEv isSend (Execute okUseCase delFailEnv okRequest).2 = 1 :=
  c6_cleanup_failure_still_success okUseCase delFailEnv okRequest
    "/tmp/video-processor/frames_1.zip" "location" 10 "delete failed" "msg-id"
    rfl rfl rfl rfl rfl rfl rfl rfl rfl rfl

/-- C8: on every successfully processed request, the success notification
payload is exactly the fields `process_id` (the request's id),
`file_bucket` (the configured output bucket) and `file_key`, with
`file_key = "processed/frames_" + process_id + ".zip"`. -/
theorem c8_success_payload (uc : UseCase) (env : Env) (request : VideoProcess)
    (zipPath loc : String) (n : Nat)
    (hv : validateRequest request = none)
    (hget : env.getObject request.videoBucket request.videoKey = .ok ())
    (hmk : env.mkdirTemp = .ok ())
    (hcreate : env.createFile (downloadTempPath request) = .ok ())
    (hcopy : env.copyBody = .ok ())
    (hproc : env.processVideo (downloadTempPath request) = .ok (zipPath, n))
    (hopen : env.openFile zipPath = .ok ())
    (hput : env.putObject uc.outputBucket (outputKeyOf request) = .ok loc) :
    sentBodies (Execute uc env request).2 =
      [[("process_id", request.processID),
        ("file_bucket", uc.outputBucket),
        ("file_key", "processed/frames_" ++ request.processID ++ ".zip")]] := by
  rw [Execute_success_run uc env request zipPath loc n hv hget hmk hcreate hcopy
    hproc hopen hput]
  simp [sentBodies, toSuccessMessage, successResult, outputKeyOf]

/-- C8 witness: the success payload at a concrete all-success run. -/
theorem c8_success_payload_witness :
    sentBodies (Execute okUseCase okEnv okRequest).2 =
      [[("process_id", okRequest.processID),
        ("file_bucket", okUseCase.outputBucket),
        ("file_key", "processed/frames_" ++ okRequest.processID ++ ".zip")]] :=
  c8_success_payload okUseCase okEnv okRequest
    "/tmp/video-processor/frames_1.zip" "location" 10
    rfl rfl rfl rfl rfl rfl rfl rfl

/-- C9: `processMessage` always ends by deleting the queue message —
exactly one `DeleteMessage` call, issued last, after `Execute` has
returned whatever it returned — and dispatches to the Orchestrator
exactly when the body parses: a malformed body is deleted without any
dispatch, a parsed body is dispatched once as the decoded request. -/
theorem c9_ack_after_dispatch (parse : String → Except GoErr (String × String × String))
    (execute : VideoProcess → Option GoErr) (now : Nat) (msg : QueueMessage) :
    ((processMessage parse execute now msg).2.getLast?
      = some (LoopEvent.deleteMsg msg.receiptHandle)) ∧
    (((processMessage parse execute now msg).2.filter isDeleteMsg).length = 1) ∧
    ((processMessage parse execute now msg).2.filter isDispatch =
      match parse msg.body with
      | .error _ => []
      | .ok (pid, bucket, key) =>
        [LoopEvent.dispatch
          { processID := pid, videoBucket := bucket, videoKey := key, createdAt := now }]) := by
  cases hp : parse msg.body
  case error e => simp [processMessage, hp, isDeleteMsg, isDispatch]
  case ok t =>
    obtain ⟨pid, bucket, key⟩ := t
    simp [processMessage, hp, isDeleteMsg, isDispatch]

/-- C10: whenever the ffmpeg extractor's `ProcessVideo` returns without
error, the frame count is at least one and equals the number of frame
files listed by the glob — exactly the files packaged into the returned
archive by `createZipFile`; a zero-frame run can therefore never return
successfully. -/
theorem c10_extractor_frame_count (p : FFmpegVideoProcessor) (fenv : FfmpegEnv)
    (pid : Nat) (videoPath zipPath : String) (n : Nat)
    (hok : ffmpegProcessVideo p fenv pid videoPath = .ok (zipPath, n)) :
    1 ≤ n ∧ ∃ frames, fenv.globFrames = .ok frames ∧ n = frames.length ∧
      fenv.createZip frames zipPath = .ok () := by
  cases hm : fenv.mkdirProcessDir
  case error e => simp [ffmpegProcessVideo, hm] at hok
  case ok u =>
  cases hr : fenv.runFfmpeg
  case error pr =>
    obtain ⟨e, out⟩ := pr
    simp [ffmpegProcessVideo, hm, hr] at hok
  case ok v =>
  cases hg : fenv.globFrames
  case error e => simp [ffmpegProcessVideo, hm, hr, hg] at hok
  case ok frames =>
  cases frames
  case nil => simp [ffmpegProcessVideo, hm, hr, hg] at hok
  case cons f fs =>
  cases hz : fenv.createZip (f :: fs) (zipTempPath p pid)
  case error e => simp [ffmpegProcessVideo, hm, hr, hg, hz] at hok
  case ok w =>
  simp [ffmpegProcessVideo, hm, hr, hg, hz] at hok
  obtain ⟨hzip, hn⟩ := hok
  refine ⟨by omega, f :: fs, rfl, by simp [hn], ?_⟩
  rw [← hzip]
  exact hz

/-- C10 witness: the frame-count contract at a concrete two-frame run. -/
theorem c10_extractor_frame_count_witness :
    1 ≤ 2 ∧ ∃ frames, okFfmpegEnv.globFrames = .ok frames ∧ 2 = frames.length ∧
      okFfmpegEnv.createZip frames "/tmp/video-processor/frames_7.zip" = .ok () :=
  c10_extractor_frame_count { tempDir := "/tmp/video-processor" } okFfmpegEnv 7
    "/tmp/v.mp4" "/tmp/video-processor/frames_7.zip" 2 rfl

end SoatProcessor
